import Mathlib

/-
Shallow embedding of the PMBM tracking core:
  src/mot/trackers/multiple_object_trackers/PMBM/common/bernoulli.py
  src/mot/trackers/multiple_object_trackers/PMBM/common/poisson_point_process.py

Modelling conventions.
* Spatial states (Gaussian densities), covariances, measurements, motion and
  measurement models are opaque: they appear as type parameters, and the
  density/Kalman collaborator's operations are abstract function parameters,
  matching the spec's "external interfaces" section.
* Python floats that carry probabilities and (log-)likelihoods are embedded as
  real numbers; the log-weight arrays of the Poisson mixture, which in the
  source are float arrays that can legitimately hold `-inf`, are embedded as
  extended reals (`EReal`).
* Python methods that mutate `self` are embedded as functions returning the
  new value of the mutated object; methods that raise are embedded with
  `Except`, where the error value names the Python exception class raised.
-/

namespace PMBM

/-- Python runtime exceptions that the embedded methods can raise. -/
inductive PyError where
  | nameError
  | typeError
  | zeroDivisionError
deriving DecidableEq

/-- Embeds the `Bernoulli` class of `bernoulli.py`: a spatial density together
with a scalar probability of existence.  `S` is the opaque type of the spatial
state (`Gaussian` in the source).  The field names follow the constructor
parameters `state` and `existence_probability`. -/
structure Bernoulli (S : Type) where
  state : S
  existence_probability : ℝ

/-- Embeds `Bernoulli.predict` exactly as written in the source.  The method
body computes `next_existence_probability`, reassigns `self.state` to the
density engine's prediction, and then evaluates
`Bernoulli(next_state, next_existence_probability)` — but `next_state` is an
unbound name, so this final expression raises `NameError` on every call.
The embedding returns the receiver as left by the body (its `state` field has
already been overwritten) together with the outcome of the `return`
expression, which is always a `NameError`.  `density_predict` abstracts
`density.predict(·, motion_model, dt)`. -/
def Bernoulli.predict {S : Type} (b : Bernoulli S) (density_predict : S → S)
    (survival_probability : ℝ) : Bernoulli S × Except PyError (Bernoulli S) :=
  let _next_existence_probability := survival_probability * b.existence_probability
  ({ b with state := density_predict b.state }, Except.error PyError.nameError)

/-- Embeds `Bernoulli.undetected_update` exactly as written in the source.
The body computes the posterior existence probability
`(r·(1 − p_d)) / (1 − r + r·(1 − p_d))` and then evaluates
`Bernoulli(initial_state=self.state, existence_probability=...)`.
Two slips in the source shape the embedding:
* the division is unguarded, so when the denominator is `0` (exactly
  `r = 1`, `detection_probability = 1`) Python float division raises
  `ZeroDivisionError` before anything is returned;
* `Bernoulli.__init__` has parameters `state` and `existence_probability`,
  so the keyword argument `initial_state=` raises `TypeError` on every call
  that reaches it.
Hence the method never returns the `(posterior Bernoulli, log-likelihood)`
pair promised by its docstring. -/
noncomputable def Bernoulli.undetected_update {S : Type} (b : Bernoulli S)
    (detection_probability : ℝ) : Except PyError (Bernoulli S × ℝ) :=
  let r := b.existence_probability
  if (1 - r + r * (1 - detection_probability) : ℝ) = 0 then
    Except.error PyError.zeroDivisionError
  else
    Except.error PyError.typeError

/-- Embeds the static method `Bernoulli.detected_update_state`:
`Bernoulli(state=density.update(bern.state, z, meas_model),
existence_probability=1.0)`.  `density_update` abstracts
`density.update(·, ·, meas_model)`; `Z` is the opaque measurement type. -/
def Bernoulli.detected_update_state {S Z : Type} (density_update : S → Z → S)
    (bern : Bernoulli S) (z : Z) : Bernoulli S :=
  { state := density_update bern.state z, existence_probability := 1 }

/-! ## Poisson intensity (`poisson_point_process.py`)

The Poisson intensity wraps a `GaussianMixtureNumpy` of parallel arrays
`means`, `covs`, `weigths_log` (sic — the field name is misspelled in the
source).  The log-weight arrays are float arrays that can legitimately hold
`-inf` (e.g. after `undetected_update` with `detection_probability = 1`), so
they are embedded as `EReal` lists.  The in-place mutating methods of
`PoissonRFS` are embedded as functions from the intensity to its new value. -/

/-- Embeds the mixture container `GaussianMixtureNumpy` (declared outside
`src/`; its field names and parallel-array layout are visible from its uses in
`poisson_point_process.py`): three parallel per-component arrays. -/
structure GaussianMixtureNumpy (M C W : Type) where
  means : List M
  covs : List C
  weigths_log : List W

/-- The parallel-array invariant of the data model: all three per-component
arrays have identical length. -/
def GaussianMixtureNumpy.Inv {M C W : Type} (I : GaussianMixtureNumpy M C W) : Prop :=
  I.means.length = I.weigths_log.length ∧ I.covs.length = I.weigths_log.length

/-- numpy boolean-mask indexing `xs[mask]` on parallel arrays of equal length:
keeps the entries whose mask position is `true`, in order. -/
def maskFilter {α : Type} : List Bool → List α → List α
  | [], _ => []
  | _ :: _, [] => []
  | true :: mask, x :: xs => x :: maskFilter mask xs
  | false :: mask, _ :: xs => maskFilter mask xs

/-- Embeds `np.log` on the nonnegative floats that occur here (probabilities):
`np.log(0) = -inf`; on positive arguments it is the real logarithm. -/
noncomputable def flog (x : ℝ) : EReal :=
  if x ≤ 0 then ⊥ else ((Real.log x : ℝ) : EReal)

/-- Embeds `PoissonRFS.predict`: in place,
`weigths_log += np.log(survival_probability)`, and the means and covariances
are advanced through the density engine's vectorized Kalman time-update,
abstracted by the per-component maps `fm` and `fc`. -/
noncomputable def PoissonRFS.predict {M C : Type} (I : GaussianMixtureNumpy M C EReal)
    (fm : M → M) (fc : C → C) (survival_probability : ℝ) :
    GaussianMixtureNumpy M C EReal :=
  { means := I.means.map fm
    covs := I.covs.map fc
    weigths_log := I.weigths_log.map (· + flog survival_probability) }

/-- Embeds `PoissonRFS.undetected_update`: in place,
`weigths_log += np.log(1 - detection_probability)`. -/
noncomputable def PoissonRFS.undetected_update {M C : Type}
    (I : GaussianMixtureNumpy M C EReal) (detection_probability : ℝ) :
    GaussianMixtureNumpy M C EReal :=
  { I with weigths_log := I.weigths_log.map (· + flog (1 - detection_probability)) }

/-- Embeds `PoissonRFS.prune`: the boolean mask `weigths_log > threshold`
(strict) is applied to all three parallel arrays. -/
noncomputable def PoissonRFS.prune {M C : Type} (I : GaussianMixtureNumpy M C EReal)
    (threshold : EReal) : GaussianMixtureNumpy M C EReal :=
  { means := maskFilter (I.weigths_log.map fun w => decide (threshold < w)) I.means
    covs := maskFilter (I.weigths_log.map fun w => decide (threshold < w)) I.covs
    weigths_log :=
      maskFilter (I.weigths_log.map fun w => decide (threshold < w)) I.weigths_log }

/-- Embeds `PoissonRFS.birth`: `self.intensity += new_components`.
Modelled from the spec: `GaussianMixtureNumpy.__iadd__` is declared outside
`src/`; §4.2 of the spec fixes it as appending the birth mixture to the
current intensity by concatenation. -/
def PoissonRFS.birth {M C W : Type} (I J : GaussianMixtureNumpy M C W) :
    GaussianMixtureNumpy M C W :=
  { means := I.means ++ J.means
    covs := I.covs ++ J.covs
    weigths_log := I.weigths_log ++ J.weigths_log }

/-! ## New-target extraction (`PoissonRFS.detected_update` and
`get_targets_detected_for_first_time`)

These operations combine the mixture's log-weights with per-component
measurement log-likelihoods in exact real arithmetic; the mixture is taken
with real-valued log-weights (the finite regime in which the claims' log/exp
algebra is stated). -/

/-- Models `scipy.special.logsumexp` on a list of real log-values:
`log` of the sum of exponentials. -/
noncomputable def logsumexp_list (xs : List ℝ) : ℝ :=
  Real.log (xs.map Real.exp).sum

/-- Binary log-sum-exp, the form in which the spec states
`logsumexp(log_sum, log(clutter_intensity))`. -/
noncomputable def logsumexp2 (a b : ℝ) : ℝ :=
  Real.log (Real.exp a + Real.exp b)

/-- Modelled from the spec: `normalize_log_weights` (defined in `mot.common`,
not under `src/`) normalizes log-weights in the log domain (log-domain
softmax) and also returns the pre-normalization log-sum — the log-domain sum
of its inputs. -/
noncomputable def normalize_log_weights (log_weights : List ℝ) : List ℝ × ℝ :=
  (log_weights.map (· - logsumexp_list log_weights), logsumexp_list log_weights)

/-- Modelled from the spec: `SingleTargetHypothesis` (declared outside
`src/`) bundles a Bernoulli, its log-likelihood, the assignment cost, the
originating measurement index, and a hypothesis id. -/
structure SingleTargetHypothesis (S : Type) where
  bernoulli : Bernoulli S
  log_likelihood : ℝ
  cost : ℝ
  meas_idx : ℕ
  sth_id : ℕ

/-- Modelled from the spec: `Track` (declared outside `src/`) wraps a
`SingleTargetHypothesis` under a track identifier. -/
structure Track (S : Type) where
  track_id : ℕ
  single_target_hypothesis : SingleTargetHypothesis S

/-- Modelled from the spec: the external factory `Track.from_sth` lifts a
hypothesis into a `Track` under a newly-assigned track identifier; the fresh
identifier is passed explicitly here. -/
def Track.from_sth {S : Type} (track_id : ℕ) (sth : SingleTargetHypothesis S) :
    Track S :=
  { track_id := track_id, single_target_hypothesis := sth }

/-- Embeds the static method `PoissonRFS.detected_update`.  The density
collaborator
`GaussianDensity.update_states_with_likelihoods_by_single_measurement` is
abstracted by the pair of functions `upd_states` (updated PPP components) and
`loglikelihoods` (innovation log-likelihoods), and
`moment_matching_vectorized` by `moment_matching`; both are opaque external
interfaces of the spec.  Following the source:
per-component posterior log-weights are
`prior log-weight + innovation log-likelihood + log(detection_probability)`;
they are normalized (recording the pre-normalization log-sum `log_sum`);
`log_likelihood = logsumexp([log_sum, log(clutter_intensity)])`;
`existence_probability = exp(log_sum - log_likelihood)`; and the result is
wrapped with `cost = -log_likelihood`, the measurement index, and
`sth_id = 0`. -/
noncomputable def PoissonRFS.detected_update {M C S Z : Type}
    (meas : ℕ × Z) (intensity : GaussianMixtureNumpy M C ℝ)
    (upd_states : Z → List S) (loglikelihoods : Z → List ℝ)
    (moment_matching : List ℝ → List S → S)
    (detection_probability clutter_intensity : ℝ) :
    SingleTargetHypothesis S :=
  let updated_ppp_components := upd_states meas.2
  let log_weights :=
    (intensity.weigths_log.zipWith (· + ·) (loglikelihoods meas.2)).map
      (· + Real.log detection_probability)
  let normalized := normalize_log_weights log_weights
  let merged_state := moment_matching normalized.1 updated_ppp_components
  let log_likelihood := logsumexp_list [normalized.2, Real.log clutter_intensity]
  let existence_probability := Real.exp (normalized.2 - log_likelihood)
  { bernoulli :=
      { state := merged_state, existence_probability := existence_probability }
    log_likelihood := log_likelihood
    cost := -log_likelihood
    meas_idx := meas.1
    sth_id := 0 }

/-- Embeds `PoissonRFS.get_targets_detected_for_first_time`: one
`detected_update` per enumerated measurement, each lifted through the
external `Track.from_sth` factory into the result mapping.  Modelled from the
spec where the source leaves `src/`: the factory's newly-assigned track
identifiers are consecutive ids from `next_track_id`, and the result
dictionary keyed by `track_id` is the association list of its insertions. -/
noncomputable def PoissonRFS.get_targets_detected_for_first_time {M C S Z : Type}
    (intensity : GaussianMixtureNumpy M C ℝ) (measurements : List Z)
    (clutter_intensity : ℝ) (upd_states : Z → List S)
    (loglikelihoods : Z → List ℝ) (moment_matching : List ℝ → List S → S)
    (detection_probability : ℝ) (next_track_id : ℕ) : List (ℕ × Track S) :=
  let new_single_target_hypotheses := measurements.enum.map fun p =>
    PoissonRFS.detected_update p intensity upd_states loglikelihoods
      moment_matching detection_probability clutter_intensity
  new_single_target_hypotheses.enum.map fun q =>
    let new_track := Track.from_sth (next_track_id + q.1) q.2
    (new_track.track_id, new_track)

/-- A concrete one-component real-weight intensity, used by witnesses. -/
def unitIntensity : GaussianMixtureNumpy Unit Unit ℝ :=
  GaussianMixtureNumpy.mk [()] [()] [(0 : ℝ)]

/-- A concrete density-engine state updater, used by witnesses. -/
def unitUpdStates : Unit → List Unit := fun _ => [()]

/-- A concrete density-engine log-likelihood vector, used by witnesses. -/
def unitLogliks : Unit → List ℝ := fun _ => [(0 : ℝ)]

/-- A concrete moment-matching collaborator, used by witnesses. -/
def unitMomentMatching : List ℝ → List Unit → Unit := fun _ _ => ()

/-- C3: `undetected_update` never returns the posterior-Bernoulli /
log-likelihood pair the claim describes: on every input it raises a Python
exception (a `ZeroDivisionError` at the singular denominator, a `TypeError`
from the misspelled constructor keyword `initial_state=` everywhere else). -/
theorem undetected_update_always_raises {S : Type} (b : Bernoulli S)
    (detection_probability : ℝ) (x : Bernoulli S × ℝ) :
    b.undetected_update detection_probability ≠ Except.ok x := by
  unfold Bernoulli.undetected_update
  by_cases h : (1 - b.existence_probability
      + b.existence_probability * (1 - detection_probability) : ℝ) = 0 <;>
    simp [h]

/-- C4: at the domain singularity `existence_probability = 1`,
`detection_probability = 1`, the unguarded division produces a
`ZeroDivisionError` (Python float semantics); no explicit domain error is
raised, contrary to the spec's mandate. -/
theorem undetected_update_singularity_zero_division :
    (Bernoulli.mk () (1 : ℝ)).undetected_update 1
      = Except.error PyError.zeroDivisionError := by
  unfold Bernoulli.undetected_update
  norm_num

/-- C5: `Bernoulli.predict` never returns a predicted Bernoulli — the
`return` expression references the unbound name `next_state`, raising
`NameError` on every call — and before failing it mutates the receiver,
overwriting `self.state` with the density engine's prediction.  This
contradicts the claim that it returns a new Bernoulli and leaves the
receiver unchanged. -/
theorem predict_raises_nameError_and_mutates {S : Type} (b : Bernoulli S)
    (density_predict : S → S) (survival_probability : ℝ) :
    (b.predict density_predict survival_probability).2
        = Except.error PyError.nameError
      ∧ (b.predict density_predict survival_probability).1.state
        = density_predict b.state := by
  exact ⟨rfl, rfl⟩

/-- C6: `detected_update_state` returns a Bernoulli whose existence
probability is exactly `1.0` regardless of the input's existence
probability, and whose state is the density engine's measurement update of
the input state. -/
theorem detected_update_state_spec {S Z : Type} (density_update : S → Z → S)
    (bern : Bernoulli S) (z : Z) :
    (Bernoulli.detected_update_state density_update bern z).existence_probability = 1
      ∧ (Bernoulli.detected_update_state density_update bern z).state
        = density_update bern.state z := by
  exact ⟨rfl, rfl⟩

/-- Two mixtures with equal parallel arrays are equal. -/
theorem GaussianMixtureNumpy.ext_of {M C W : Type} {I J : GaussianMixtureNumpy M C W}
    (hm : I.means = J.means) (hc : I.covs = J.covs)
    (hw : I.weigths_log = J.weigths_log) : I = J := by
  cases I
  cases J
  simp_all

theorem maskFilter_map_pred {α : Type} (p : α → Bool) (xs : List α) :
    maskFilter (xs.map p) xs = xs.filter p := by
  induction xs with
  | nil => rfl
  | cons x xs ih =>
    cases hpx : p x <;> simp [maskFilter, List.filter_cons, hpx, ih]

theorem maskFilter_length_eq {α β : Type} :
    ∀ (mask : List Bool) (xs : List α) (ys : List β), xs.length = ys.length →
      (maskFilter mask xs).length = (maskFilter mask ys).length
  | [], _, _, _ => by simp [maskFilter]
  | _ :: _, [], [], _ => by simp [maskFilter]
  | b :: mask, x :: xs, y :: ys, h => by
    cases b <;>
      simp [maskFilter, maskFilter_length_eq mask xs ys (by simpa using h)]
  | _ :: _, [], _ :: _, h => by simp at h
  | _ :: _, _ :: _, [], h => by simp at h

theorem maskFilter_map_pred_of_length {α β : Type} (p : β → Bool) :
    ∀ (xs : List α) (ys : List β), xs.length = ys.length →
      (∀ b ∈ ys, p b = true) → maskFilter (ys.map p) xs = xs
  | [], [], _, _ => rfl
  | x :: xs, y :: ys, h, hall => by
    have hy : p y = true := hall y (List.mem_cons_self y ys)
    simp [maskFilter, hy,
      maskFilter_map_pred_of_length p xs ys (by simpa using h)
        (fun b hb => hall b (List.mem_cons_of_mem y hb))]
  | [], _ :: _, h, _ => by simp at h
  | _ :: _, [], h, _ => by simp at h

/-- C7: every mutating operation of the Poisson intensity (`predict`,
`birth`, `prune`, `undetected_update`) preserves the parallel-array
invariant, for every input mixture (and birth mixture) satisfying it. -/
theorem poisson_ops_preserve_parallel_invariant {M C : Type}
    (I J : GaussianMixtureNumpy M C EReal) (fm : M → M) (fc : C → C)
    (survival_probability detection_probability : ℝ) (threshold : EReal)
    (hI : I.Inv) (hJ : J.Inv) :
    (PoissonRFS.predict I fm fc survival_probability).Inv
      ∧ (PoissonRFS.birth I J).Inv
      ∧ (PoissonRFS.prune I threshold).Inv
      ∧ (PoissonRFS.undetected_update I detection_probability).Inv := by
  obtain ⟨mi, ci, wi⟩ := I
  obtain ⟨mj, cj, wj⟩ := J
  obtain ⟨h1, h2⟩ := hI
  obtain ⟨h3, h4⟩ := hJ
  simp only [GaussianMixtureNumpy.Inv] at h1 h2 h3 h4 ⊢
  refine ⟨⟨?_, ?_⟩, ⟨?_, ?_⟩, ⟨?_, ?_⟩, ⟨?_, ?_⟩⟩
  · simpa [PoissonRFS.predict] using h1
  · simpa [PoissonRFS.predict] using h2
  · simp [PoissonRFS.birth, h1, h3]
  · simp [PoissonRFS.birth, h2, h4]
  · exact maskFilter_length_eq _ mi wi h1
  · exact maskFilter_length_eq _ ci wi h2
  · simpa [PoissonRFS.undetected_update] using h1
  · simpa [PoissonRFS.undetected_update] using h2

/-- Witness for C7 at a concrete one-component intensity and birth mixture. -/
theorem poisson_ops_preserve_parallel_invariant_witness :
    (GaussianMixtureNumpy.mk [0] [0] [(0 : EReal)] : GaussianMixtureNumpy ℕ ℕ EReal).Inv
      ∧ (GaussianMixtureNumpy.mk [1] [1] [(1 : EReal)] : GaussianMixtureNumpy ℕ ℕ EReal).Inv
      ∧ ((PoissonRFS.predict (GaussianMixtureNumpy.mk [0] [0] [(0 : EReal)]) id id 1).Inv
        ∧ (PoissonRFS.birth (GaussianMixtureNumpy.mk [0] [0] [(0 : EReal)])
            (GaussianMixtureNumpy.mk [1] [1] [(1 : EReal)])).Inv
        ∧ (PoissonRFS.prune (GaussianMixtureNumpy.mk [0] [0] [(0 : EReal)]) ⊥).Inv
        ∧ (PoissonRFS.undetected_update (GaussianMixtureNumpy.mk [0] [0] [(0 : EReal)])
            (1 / 2)).Inv) :=
  ⟨⟨rfl, rfl⟩, ⟨rfl, rfl⟩,
    poisson_ops_preserve_parallel_invariant _ _ id id 1 (1 / 2) ⊥ ⟨rfl, rfl⟩ ⟨rfl, rfl⟩⟩

/-- C9: `prune` is idempotent — pruning twice at the same threshold equals
pruning once, for every intensity satisfying the parallel-array invariant. -/
theorem prune_idempotent {M C : Type} (I : GaussianMixtureNumpy M C EReal)
    (threshold : EReal) (hI : I.Inv) :
    PoissonRFS.prune (PoissonRFS.prune I threshold) threshold
      = PoissonRFS.prune I threshold := by
  obtain ⟨ms, cs, ws⟩ := I
  obtain ⟨h1, h2⟩ := hI
  simp only [GaussianMixtureNumpy.Inv] at h1 h2
  have hall : ∀ w ∈ ws.filter (fun w => decide (threshold < w)),
      (fun w => decide (threshold < w)) w = true :=
    fun w hw => (List.mem_filter.mp hw).2
  have hwlog : maskFilter (ws.map fun w => decide (threshold < w)) ws
      = ws.filter (fun w => decide (threshold < w)) := maskFilter_map_pred _ _
  have hlm : (maskFilter (ws.map fun w => decide (threshold < w)) ms).length
      = (ws.filter fun w => decide (threshold < w)).length := by
    rw [maskFilter_length_eq _ ms ws h1, hwlog]
  have hlc : (maskFilter (ws.map fun w => decide (threshold < w)) cs).length
      = (ws.filter fun w => decide (threshold < w)).length := by
    rw [maskFilter_length_eq _ cs ws h2, hwlog]
  apply GaussianMixtureNumpy.ext_of
  · show maskFilter
        ((maskFilter (ws.map fun w => decide (threshold < w)) ws).map
          fun w => decide (threshold < w))
        (maskFilter (ws.map fun w => decide (threshold < w)) ms)
      = maskFilter (ws.map fun w => decide (threshold < w)) ms
    rw [hwlog]
    exact maskFilter_map_pred_of_length _ _ _ hlm hall
  · show maskFilter
        ((maskFilter (ws.map fun w => decide (threshold < w)) ws).map
          fun w => decide (threshold < w))
        (maskFilter (ws.map fun w => decide (threshold < w)) cs)
      = maskFilter (ws.map fun w => decide (threshold < w)) cs
    rw [hwlog]
    exact maskFilter_map_pred_of_length _ _ _ hlc hall
  · show maskFilter
        ((maskFilter (ws.map fun w => decide (threshold < w)) ws).map
          fun w => decide (threshold < w))
        (maskFilter (ws.map fun w => decide (threshold < w)) ws)
      = maskFilter (ws.map fun w => decide (threshold < w)) ws
    rw [hwlog]
    exact maskFilter_map_pred_of_length _ _ _ rfl hall

/-- Witness for C9 at a concrete one-component intensity. -/
theorem prune_idempotent_witness :
    (GaussianMixtureNumpy.mk [0] [0] [(0 : EReal)] : GaussianMixtureNumpy ℕ ℕ EReal).Inv
      ∧ PoissonRFS.prune
          (PoissonRFS.prune (GaussianMixtureNumpy.mk [0] [0] [(0 : EReal)]) ⊥) ⊥
        = PoissonRFS.prune (GaussianMixtureNumpy.mk [0] [0] [(0 : EReal)]) ⊥ :=
  ⟨⟨rfl, rfl⟩, prune_idempotent _ ⊥ ⟨rfl, rfl⟩⟩

/-- C8 counterexample: the claim fails for an intensity holding a component of
log-weight `-∞`, which the spec's data model allows (`log_weight` finite or
`-∞`).  `prune` keeps exactly the components with `log_weight > threshold`
(strict), and `-∞ > -∞` is false, so `prune(-∞)` right after `birth` removes
such a component. -/
theorem birth_prune_neg_infinity_removes_component :
    PoissonRFS.prune
        (PoissonRFS.birth (GaussianMixtureNumpy.mk [()] [()] [(⊥ : EReal)])
          (GaussianMixtureNumpy.mk ([] : List Unit) ([] : List Unit)
            ([] : List EReal))) ⊥
      ≠ PoissonRFS.birth (GaussianMixtureNumpy.mk [()] [()] [(⊥ : EReal)])
          (GaussianMixtureNumpy.mk ([] : List Unit) ([] : List Unit)
            ([] : List EReal)) := by
  intro h
  have hw := congrArg GaussianMixtureNumpy.weigths_log h
  have hd : decide ((⊥ : EReal) < ⊥) = false := decide_eq_false (lt_irrefl _)
  simp [PoissonRFS.prune, PoissonRFS.birth, hd, maskFilter] at hw

/-- C8 amended: for every intensity and every birth mixture satisfying the
parallel-array invariant and all of whose log-weights are strictly greater
than `-∞`, `birth` followed by `prune(-∞)` removes no component: the result
equals the mixture immediately after `birth`. -/
theorem birth_prune_bot_noop {M C : Type} (I J : GaussianMixtureNumpy M C EReal)
    (hI : I.Inv) (hJ : J.Inv)
    (hfin : ∀ w ∈ I.weigths_log ++ J.weigths_log, (⊥ : EReal) < w) :
    PoissonRFS.prune (PoissonRFS.birth I J) ⊥ = PoissonRFS.birth I J := by
  obtain ⟨mi, ci, wi⟩ := I
  obtain ⟨mj, cj, wj⟩ := J
  obtain ⟨h1, h2⟩ := hI
  obtain ⟨h3, h4⟩ := hJ
  have hall : ∀ w ∈ wi ++ wj, (fun w => decide ((⊥ : EReal) < w)) w = true :=
    fun w hw => decide_eq_true (hfin w hw)
  have hm : (mi ++ mj).length = (wi ++ wj).length := by simp [h1, h3]
  have hc : (ci ++ cj).length = (wi ++ wj).length := by simp [h2, h4]
  apply GaussianMixtureNumpy.ext_of
  · show maskFilter ((wi ++ wj).map fun w => decide ((⊥ : EReal) < w)) (mi ++ mj)
        = mi ++ mj
    exact maskFilter_map_pred_of_length _ _ _ hm hall
  · show maskFilter ((wi ++ wj).map fun w => decide ((⊥ : EReal) < w)) (ci ++ cj)
        = ci ++ cj
    exact maskFilter_map_pred_of_length _ _ _ hc hall
  · show maskFilter ((wi ++ wj).map fun w => decide ((⊥ : EReal) < w)) (wi ++ wj)
        = wi ++ wj
    exact maskFilter_map_pred_of_length _ _ _ rfl hall

/-- Witness for the amended C8 at concrete mixtures with finite log-weights. -/
theorem birth_prune_bot_noop_witness :
    ((GaussianMixtureNumpy.mk [0] [0] [((0 : ℝ) : EReal)] :
        GaussianMixtureNumpy ℕ ℕ EReal).Inv
      ∧ (GaussianMixtureNumpy.mk [1] [1] [((1 : ℝ) : EReal)] :
          GaussianMixtureNumpy ℕ ℕ EReal).Inv
      ∧ ∀ w ∈ (GaussianMixtureNumpy.mk [0] [0] [((0 : ℝ) : EReal)] :
            GaussianMixtureNumpy ℕ ℕ EReal).weigths_log
          ++ (GaussianMixtureNumpy.mk [1] [1] [((1 : ℝ) : EReal)] :
            GaussianMixtureNumpy ℕ ℕ EReal).weigths_log, (⊥ : EReal) < w)
      ∧ PoissonRFS.prune
          (PoissonRFS.birth (GaussianMixtureNumpy.mk [0] [0] [((0 : ℝ) : EReal)])
            (GaussianMixtureNumpy.mk [1] [1] [((1 : ℝ) : EReal)])) ⊥
        = PoissonRFS.birth (GaussianMixtureNumpy.mk [0] [0] [((0 : ℝ) : EReal)])
            (GaussianMixtureNumpy.mk [1] [1] [((1 : ℝ) : EReal)]) :=
  ⟨⟨⟨rfl, rfl⟩, ⟨rfl, rfl⟩,
      by
        intro w hw
        simp only [List.cons_append, List.nil_append, List.mem_cons,
          List.mem_singleton] at hw
        rcases hw with h | h | h
        · exact h ▸ EReal.bot_lt_coe 0
        · exact h ▸ EReal.bot_lt_coe 1
        · exact absurd h (List.not_mem_nil w)⟩,
    birth_prune_bot_noop _ _ ⟨rfl, rfl⟩ ⟨rfl, rfl⟩
      (by
        intro w hw
        simp only [List.cons_append, List.nil_append, List.mem_cons,
          List.mem_singleton] at hw
        rcases hw with h | h | h
        · exact h ▸ EReal.bot_lt_coe 0
        · exact h ▸ EReal.bot_lt_coe 1
        · exact absurd h (List.not_mem_nil w))⟩

/-- C1: for every measurement processed by `detected_update` (with as many
per-component log-likelihoods as mixture components, as asserted in the
source), the returned hypothesis has
`log_likelihood = logsumexp(log_sum, log(clutter_intensity))` where
`log_sum` is the pre-normalization log-sum of the per-component posterior
log-weights, and the returned Bernoulli's existence probability is
`exp(log_sum - log_likelihood)`. -/
theorem detected_update_likelihood_and_existence {M C S Z : Type}
    (meas : ℕ × Z) (intensity : GaussianMixtureNumpy M C ℝ)
    (upd_states : Z → List S) (loglikelihoods : Z → List ℝ)
    (moment_matching : List ℝ → List S → S)
    (detection_probability clutter_intensity : ℝ)
    (hlen : (loglikelihoods meas.2).length = intensity.weigths_log.length) :
    (PoissonRFS.detected_update meas intensity upd_states loglikelihoods
        moment_matching detection_probability clutter_intensity).log_likelihood
      = logsumexp2
          (logsumexp_list
            ((intensity.weigths_log.zipWith (· + ·) (loglikelihoods meas.2)).map
              (· + Real.log detection_probability)))
          (Real.log clutter_intensity)
    ∧ (PoissonRFS.detected_update meas intensity upd_states loglikelihoods
        moment_matching detection_probability clutter_intensity).bernoulli.existence_probability
      = Real.exp
          (logsumexp_list
              ((intensity.weigths_log.zipWith (· + ·) (loglikelihoods meas.2)).map
                (· + Real.log detection_probability))
            - (PoissonRFS.detected_update meas intensity upd_states loglikelihoods
                moment_matching detection_probability clutter_intensity).log_likelihood) := by
  constructor
  · simp [PoissonRFS.detected_update, normalize_log_weights, logsumexp_list,
      logsumexp2]
  · simp [PoissonRFS.detected_update, normalize_log_weights]

/-- Witness for C1 at a concrete one-component intensity and measurement. -/
theorem detected_update_likelihood_and_existence_witness :
    (unitLogliks ()).length = unitIntensity.weigths_log.length
      ∧ ((PoissonRFS.detected_update (0, ()) unitIntensity unitUpdStates
            unitLogliks unitMomentMatching 1 1).log_likelihood
          = logsumexp2
              (logsumexp_list
                ((unitIntensity.weigths_log.zipWith (· + ·) (unitLogliks ())).map
                  (· + Real.log 1)))
              (Real.log 1)
        ∧ (PoissonRFS.detected_update (0, ()) unitIntensity unitUpdStates
            unitLogliks unitMomentMatching 1 1).bernoulli.existence_probability
          = Real.exp
              (logsumexp_list
                  ((unitIntensity.weigths_log.zipWith (· + ·) (unitLogliks ())).map
                    (· + Real.log 1))
                - (PoissonRFS.detected_update (0, ()) unitIntensity unitUpdStates
                    unitLogliks unitMomentMatching 1 1).log_likelihood)) :=
  ⟨rfl,
    detected_update_likelihood_and_existence (0, ()) unitIntensity unitUpdStates
      unitLogliks unitMomentMatching 1 1 rfl⟩

/-- C10: for a non-empty mixture and positive clutter intensity, the
existence probability produced by `detected_update` lies in `[0, 1]` without
any clamping: the total log-likelihood `logsumexp(log_sum, log c)` dominates
`log_sum`, so `exp(log_sum - log_likelihood) ≤ 1`, and an exponential is
nonnegative. -/
theorem detected_update_existence_in_unit_interval {M C S Z : Type}
    (meas : ℕ × Z) (intensity : GaussianMixtureNumpy M C ℝ)
    (upd_states : Z → List S) (loglikelihoods : Z → List ℝ)
    (moment_matching : List ℝ → List S → S)
    (detection_probability clutter_intensity : ℝ)
    (hne : intensity.weigths_log ≠ []) (hc : 0 < clutter_intensity) :
    0 ≤ (PoissonRFS.detected_update meas intensity upd_states loglikelihoods
          moment_matching detection_probability clutter_intensity).bernoulli.existence_probability
    ∧ (PoissonRFS.detected_update meas intensity upd_states loglikelihoods
          moment_matching detection_probability clutter_intensity).bernoulli.existence_probability
        ≤ 1 := by
  constructor
  · exact (Real.exp_pos _).le
  · show Real.exp
        (logsumexp_list _
          - logsumexp_list [logsumexp_list _, Real.log clutter_intensity]) ≤ 1
    have hsum : logsumexp_list
        [logsumexp_list
            ((intensity.weigths_log.zipWith (· + ·) (loglikelihoods meas.2)).map
              (· + Real.log detection_probability)),
          Real.log clutter_intensity]
        = Real.log
            (Real.exp
                (logsumexp_list
                  ((intensity.weigths_log.zipWith (· + ·) (loglikelihoods meas.2)).map
                    (· + Real.log detection_probability)))
              + Real.exp (Real.log clutter_intensity)) := by
      simp [logsumexp_list]
    rw [hsum]
    have hle : logsumexp_list
        ((intensity.weigths_log.zipWith (· + ·) (loglikelihoods meas.2)).map
          (· + Real.log detection_probability))
        ≤ Real.log
            (Real.exp
                (logsumexp_list
                  ((intensity.weigths_log.zipWith (· + ·) (loglikelihoods meas.2)).map
                    (· + Real.log detection_probability)))
              + Real.exp (Real.log clutter_intensity)) := by
      calc logsumexp_list
            ((intensity.weigths_log.zipWith (· + ·) (loglikelihoods meas.2)).map
              (· + Real.log detection_probability))
          = Real.log
              (Real.exp
                (logsumexp_list
                  ((intensity.weigths_log.zipWith (· + ·) (loglikelihoods meas.2)).map
                    (· + Real.log detection_probability)))) := (Real.log_exp _).symm
        _ ≤ _ :=
            Real.log_le_log (Real.exp_pos _)
              (le_add_of_nonneg_right (Real.exp_pos _).le)
    calc Real.exp _ ≤ Real.exp 0 := Real.exp_le_exp.mpr (sub_nonpos.mpr hle)
      _ = 1 := Real.exp_zero

/-- Witness for C10 at a concrete one-component intensity and unit clutter. -/
theorem detected_update_existence_in_unit_interval_witness :
    (unitIntensity.weigths_log ≠ [] ∧ (0 : ℝ) < 1)
      ∧ (0 ≤ (PoissonRFS.detected_update (0, ()) unitIntensity unitUpdStates
            unitLogliks unitMomentMatching 1 1).bernoulli.existence_probability
        ∧ (PoissonRFS.detected_update (0, ()) unitIntensity unitUpdStates
            unitLogliks unitMomentMatching 1 1).bernoulli.existence_probability
          ≤ 1) :=
  ⟨⟨by simp [unitIntensity], one_pos⟩,
    detected_update_existence_in_unit_interval (0, ()) unitIntensity
      unitUpdStates unitLogliks unitMomentMatching 1 1
      (by simp [unitIntensity]) one_pos⟩

theorem map_enum_fst_apply {α β : Type} (l : List α) (g : ℕ → β) :
    l.enum.map (fun q => g q.1) = (List.range l.length).map g := by
  rw [show (fun q : ℕ × α => g q.1) = g ∘ Prod.fst from rfl, ← List.map_map,
    List.enum_map_fst]

theorem map_enum_snd_apply {α β : Type} (l : List α) (g : α → β) :
    l.enum.map (fun q => g q.2) = l.map g := by
  rw [show (fun q : ℕ × α => g q.2) = g ∘ Prod.snd from rfl, ← List.map_map,
    List.enum_map_snd]

/-- C2: over `n` measurements, `get_targets_detected_for_first_time` yields a
mapping with exactly `n` entries — the freshly-assigned track ids are
pairwise distinct, so the dictionary holds one `Track` per measurement — and
the hypotheses' `meas_idx` values are a permutation of `0..n-1`. -/
theorem get_targets_one_entry_per_measurement {M C S Z : Type}
    (intensity : GaussianMixtureNumpy M C ℝ) (measurements : List Z)
    (clutter_intensity : ℝ) (upd_states : Z → List S)
    (loglikelihoods : Z → List ℝ) (moment_matching : List ℝ → List S → S)
    (detection_probability : ℝ) (next_track_id : ℕ) :
    (PoissonRFS.get_targets_detected_for_first_time intensity measurements
        clutter_intensity upd_states loglikelihoods moment_matching
        detection_probability next_track_id).length = measurements.length
    ∧ ((PoissonRFS.get_targets_detected_for_first_time intensity measurements
        clutter_intensity upd_states loglikelihoods moment_matching
        detection_probability next_track_id).map Prod.fst).Nodup
    ∧ List.Perm
        ((PoissonRFS.get_targets_detected_for_first_time intensity measurements
            clutter_intensity upd_states loglikelihoods moment_matching
            detection_probability next_track_id).map
          fun q => q.2.single_target_hypothesis.meas_idx)
        (List.range measurements.length) := by
  refine ⟨?_, ?_, ?_⟩
  · simp [PoissonRFS.get_targets_detected_for_first_time]
  · simp only [PoissonRFS.get_targets_detected_for_first_time]
    rw [List.map_map]
    show (((measurements.enum.map fun p =>
        PoissonRFS.detected_update p intensity upd_states loglikelihoods
          moment_matching detection_probability clutter_intensity).enum.map
        fun q => next_track_id + q.1)).Nodup
    rw [map_enum_fst_apply _ (fun i => next_track_id + i)]
    exact (List.nodup_range _).map (add_right_injective next_track_id)
  · have he : ((PoissonRFS.get_targets_detected_for_first_time intensity
          measurements clutter_intensity upd_states loglikelihoods
          moment_matching detection_probability next_track_id).map
        fun q => q.2.single_target_hypothesis.meas_idx)
        = List.range measurements.length := by
      simp only [PoissonRFS.get_targets_detected_for_first_time]
      rw [List.map_map]
      show ((measurements.enum.map fun p =>
          PoissonRFS.detected_update p intensity upd_states loglikelihoods
            moment_matching detection_probability clutter_intensity).enum.map
          fun q => q.2.meas_idx) = _
      rw [List.enum_map, List.map_map]
      show (measurements.enum.enum.map fun q => q.2.1) = _
      rw [map_enum_snd_apply measurements.enum (fun p => p.1),
        map_enum_fst_apply measurements (fun i => i)]
      exact List.map_id' (List.range measurements.length)
    rw [he]

end PMBM
